import Mathlib

/-!
Shallow embedding of the Track-hold-VFO firmware (src/Tracking-VFO-VK3JST.ino).

Machine integers are modelled as `Nat` with explicit `% 2^w` where the C
code relies on fixed-width wraparound (`byte` accumulators, `uint16_t`
counters, `uint32_t` frequency words); the C `double` values (which carry
only exactly representable decimal constants and exact ratios here) are
modelled as `ℚ`.

The interrupt-driven gated counter is modelled as a step relation on the
shared volatile state: an event is either a rising edge of the external
input signal (which increments the hardware counter TCNT1 and, on wrap,
runs `ISR(TIMER1_OVF_vect)`) or a Timer-2 overflow (which runs
`ISR(TIMER2_OVF_vect)`).  The main thread's `getGatedCount` is modelled as
the function it performs once the busy-wait observes the gate-complete
condition, with an explicit list of interrupt events that may interleave
between its re-arm write and its subsequent reads.
-/

/-- `const long F_MIN = 4950000L` -/
def F_MIN : ℕ := 4950000

/-- `const long F_MAX = 5550000L` -/
def F_MAX : ℕ := 5550000

/-- `const long F_MID = (F_MAX + F_MIN) / 2` -/
def F_MID : ℕ := (F_MAX + F_MIN) / 2

/-- `const double GATE_SEG_DUR = 0.016384` -/
def GATE_SEG_DUR : ℚ := 0.016384

/-- `const int SEGS_PER_GATE = 6` -/
def SEGS_PER_GATE : Int := 6

/-- `const double GATE_DUR = GATE_SEG_DUR * SEGS_PER_GATE` -/
def GATE_DUR : ℚ := GATE_SEG_DUR * (SEGS_PER_GATE : ℚ)

/-- Initial value of the global `double scaleFactor = 1.0 / GATE_DUR`. -/
def scaleFactorInit : ℚ := 1 / GATE_DUR

/-- The volatile state shared between the two interrupt service routines and
the main thread, together with the Timer-1 hardware count register TCNT1:
`volatile int vGateSegCountdown`, `volatile byte vCtr1OvrFlows`,
`volatile byte vCtr1OvrFlowsCopy`, `volatile uint16_t vCtr1Copy`. -/
structure GateState where
  vGateSegCountdown : Int
  TCNT1 : ℕ
  vCtr1OvrFlows : ℕ
  vCtr1OvrFlowsCopy : ℕ
  vCtr1Copy : ℕ
deriving DecidableEq, Repr

/-- Asynchronous hardware events: a rising edge on the external signal input
(clocking Timer 1), or a Timer-2 overflow (end of one 16.384 ms gate
segment). -/
inductive GateEv where
  | edge : GateEv
  | t2ovf : GateEv
deriving DecidableEq, Repr

/-- One hardware event.  `edge`: TCNT1 increments mod 2^16; on wrap,
`ISR(TIMER1_OVF_vect)` runs `++vCtr1OvrFlows` (a `byte`, so mod 2^8).
`t2ovf`: `ISR(TIMER2_OVF_vect)` runs
`if (--vGateSegCountdown == 0) { vCtr1Copy = TCNT1; TCNT1 = 0;
vCtr1OvrFlowsCopy = vCtr1OvrFlows; vCtr1OvrFlows = 0; }`. -/
def gateStep (s : GateState) : GateEv → GateState
  | GateEv.edge =>
      if s.TCNT1 = 65535 then
        { s with TCNT1 := 0, vCtr1OvrFlows := (s.vCtr1OvrFlows + 1) % 256 }
      else
        { s with TCNT1 := s.TCNT1 + 1 }
  | GateEv.t2ovf =>
      if s.vGateSegCountdown - 1 = 0 then
        { s with vGateSegCountdown := s.vGateSegCountdown - 1,
                 vCtr1Copy := s.TCNT1,
                 TCNT1 := 0,
                 vCtr1OvrFlowsCopy := s.vCtr1OvrFlows,
                 vCtr1OvrFlows := 0 }
      else
        { s with vGateSegCountdown := s.vGateSegCountdown - 1 }

/-- Run a sequence of hardware events. -/
def gateRun (s : GateState) (l : List GateEv) : GateState := List.foldl gateStep s l

/-- `getGatedCount()` once the busy-wait `do {} while (vGateSegCountdown > 0)`
has exited: it first re-arms the gate (`vGateSegCountdown = SEGS_PER_GATE`),
then reads the two snapshot fields and combines them,
`gCount = (gCount << 16) + vCtr1Copy` with `gCount = vCtr1OvrFlowsCopy`.
Returns the post-call state and the returned 32-bit count. -/
def getGatedCount (s : GateState) : GateState × ℕ :=
  ({ s with vGateSegCountdown := SEGS_PER_GATE },
   (s.vCtr1OvrFlowsCopy <<< 16) + s.vCtr1Copy)

/-- `getGatedCount()` with an explicit list `mid` of interrupt events that
preempt the main thread between the re-arm write (the first action after the
busy-wait exits) and the subsequent reads of the snapshot fields. -/
def getGatedCountI (s : GateState) (mid : List GateEv) : GateState × ℕ :=
  (gateRun { s with vGateSegCountdown := SEGS_PER_GATE } mid,
   ((gateRun { s with vGateSegCountdown := SEGS_PER_GATE } mid).vCtr1OvrFlowsCopy <<< 16) +
     (gateRun { s with vGateSegCountdown := SEGS_PER_GATE } mid).vCtr1Copy)

/-- Number of Timer-2 overflow events (gate segments) in an event list. -/
def numT2 (l : List GateEv) : ℕ := List.countP (fun e => decide (e = GateEv.t2ovf)) l

/-- Number of external-signal edges in an event list. -/
def numEdges (l : List GateEv) : ℕ := List.countP (fun e => decide (e = GateEv.edge)) l

/-- Width invariant of the shared state: TCNT1 and `vCtr1Copy` are 16-bit,
the two overflow accumulators are 8-bit. -/
def GateInv (s : GateState) : Prop :=
  s.TCNT1 < 65536 ∧ s.vCtr1OvrFlows < 256 ∧ s.vCtr1Copy < 65536 ∧ s.vCtr1OvrFlowsCopy < 256

instance (s : GateState) : Decidable (GateInv s) := by
  unfold GateInv; infer_instance

/-- The wide edge count currently accumulated in the live counters:
overflow accumulator in the high bits, TCNT1 in the low 16 bits. -/
def gateVal (s : GateState) : ℕ := s.vCtr1OvrFlows * 65536 + s.TCNT1

theorem numT2_cons_edge (l : List GateEv) : numT2 (GateEv.edge :: l) = numT2 l := by
  simp [numT2, List.countP_cons]

theorem numT2_cons_t2 (l : List GateEv) : numT2 (GateEv.t2ovf :: l) = numT2 l + 1 := by
  simp [numT2, List.countP_cons]

theorem numEdges_cons_edge (l : List GateEv) : numEdges (GateEv.edge :: l) = numEdges l + 1 := by
  simp [numEdges, List.countP_cons]

theorem numEdges_cons_t2 (l : List GateEv) : numEdges (GateEv.t2ovf :: l) = numEdges l := by
  simp [numEdges, List.countP_cons]

theorem gateStep_edge (s : GateState) (hinv : GateInv s) :
    gateVal (gateStep s GateEv.edge) = (gateVal s + 1) % 16777216 ∧
    GateInv (gateStep s GateEv.edge) ∧
    (gateStep s GateEv.edge).vCtr1OvrFlowsCopy = s.vCtr1OvrFlowsCopy ∧
    (gateStep s GateEv.edge).vCtr1Copy = s.vCtr1Copy ∧
    (gateStep s GateEv.edge).vGateSegCountdown = s.vGateSegCountdown := by
  obtain ⟨h1, h2, h3, h4⟩ := hinv
  by_cases he : s.TCNT1 = 65535
  · have hs : gateStep s GateEv.edge =
        { s with TCNT1 := 0, vCtr1OvrFlows := (s.vCtr1OvrFlows + 1) % 256 } := by
      simp [gateStep, he]
    rw [hs]
    refine ⟨?_, ?_, rfl, rfl, rfl⟩
    · unfold gateVal
      dsimp
      omega
    · unfold GateInv
      dsimp
      omega
  · have hs : gateStep s GateEv.edge = { s with TCNT1 := s.TCNT1 + 1 } := by
      simp [gateStep, he]
    rw [hs]
    refine ⟨?_, ?_, rfl, rfl, rfl⟩
    · unfold gateVal
      dsimp
      omega
    · unfold GateInv
      dsimp
      omega

theorem gateStep_t2_noSnap (s : GateState) (h : s.vGateSegCountdown ≠ 1) :
    gateStep s GateEv.t2ovf = { s with vGateSegCountdown := s.vGateSegCountdown - 1 } := by
  have hne : ¬ (s.vGateSegCountdown - 1 = 0) := by omega
  simp [gateStep, hne]

theorem gateStep_t2_snap (s : GateState) (h : s.vGateSegCountdown = 1) :
    gateStep s GateEv.t2ovf =
      { vGateSegCountdown := 0, TCNT1 := 0, vCtr1OvrFlows := 0,
        vCtr1OvrFlowsCopy := s.vCtr1OvrFlows, vCtr1Copy := s.TCNT1 } := by
  have hz : s.vGateSegCountdown - 1 = 0 := by omega
  simp [gateStep, hz]

/-- Running events that contain fewer Timer-2 overflows than the remaining
countdown never triggers a snapshot: the countdown just decreases, the
snapshot copies are untouched, and the live counters accumulate the edges
modulo 2^24. -/
theorem gateRun_noSnap (l : List GateEv) (s : GateState)
    (hseg : 1 ≤ s.vGateSegCountdown)
    (hk : (numT2 l : Int) < s.vGateSegCountdown)
    (hinv : GateInv s) :
    (gateRun s l).vGateSegCountdown = s.vGateSegCountdown - numT2 l ∧
    (gateRun s l).vCtr1OvrFlowsCopy = s.vCtr1OvrFlowsCopy ∧
    (gateRun s l).vCtr1Copy = s.vCtr1Copy ∧
    GateInv (gateRun s l) ∧
    gateVal (gateRun s l) = (gateVal s + numEdges l) % 16777216 := by
  induction l generalizing s with
  | nil =>
      refine ⟨by simp [gateRun, numT2], rfl, rfl, hinv, ?_⟩
      have hv : gateVal s < 16777216 := by
        obtain ⟨h1, h2, _, _⟩ := hinv
        unfold gateVal
        omega
      simp [gateRun, numEdges, Nat.mod_eq_of_lt hv]
  | cons e t ih =>
      have hrun : gateRun s (e :: t) = gateRun (gateStep s e) t := rfl
      cases e with
      | edge =>
          obtain ⟨hval, hinv2, hc1, hc2, hc3⟩ := gateStep_edge s hinv
          have hk2 : (numT2 t : Int) < (gateStep s GateEv.edge).vGateSegCountdown := by
            rw [hc3]
            rw [numT2_cons_edge] at hk
            exact hk
          have hseg2 : 1 ≤ (gateStep s GateEv.edge).vGateSegCountdown := by
            rw [hc3]; exact hseg
          obtain ⟨i1, i2, i3, i4, i5⟩ := ih (gateStep s GateEv.edge) hseg2 hk2 hinv2
          rw [hrun]
          refine ⟨?_, ?_, ?_, i4, ?_⟩
          · rw [i1, hc3, numT2_cons_edge]
          · rw [i2, hc1]
          · rw [i3, hc2]
          · rw [i5, hval, numEdges_cons_edge]
            omega
      | t2ovf =>
          rw [numT2_cons_t2] at hk
          have hne : s.vGateSegCountdown ≠ 1 := by omega
          have hstep := gateStep_t2_noSnap s hne
          have hseg2 : 1 ≤ (gateStep s GateEv.t2ovf).vGateSegCountdown := by
            rw [hstep]
            dsimp
            omega
          have hk2 : (numT2 t : Int) < (gateStep s GateEv.t2ovf).vGateSegCountdown := by
            rw [hstep]
            dsimp
            omega
          have hinv2 : GateInv (gateStep s GateEv.t2ovf) := by
            rw [hstep]; exact hinv
          obtain ⟨i1, i2, i3, i4, i5⟩ := ih (gateStep s GateEv.t2ovf) hseg2 hk2 hinv2
          rw [hrun]
          refine ⟨?_, ?_, ?_, i4, ?_⟩
          · rw [i1, hstep, numT2_cons_t2]
            dsimp
            push_cast
            ring
          · rw [i2, hstep]
          · rw [i3, hstep]
          · rw [i5, hstep, numEdges_cons_t2]
            rfl

/-- Running edge-only events (no Timer-2 overflow) leaves the countdown and
the snapshot copies untouched and accumulates the edges modulo 2^24. -/
theorem gateRun_edges (l : List GateEv) (s : GateState)
    (h0 : numT2 l = 0) (hinv : GateInv s) :
    (gateRun s l).vGateSegCountdown = s.vGateSegCountdown ∧
    (gateRun s l).vCtr1OvrFlowsCopy = s.vCtr1OvrFlowsCopy ∧
    (gateRun s l).vCtr1Copy = s.vCtr1Copy ∧
    GateInv (gateRun s l) ∧
    gateVal (gateRun s l) = (gateVal s + numEdges l) % 16777216 := by
  induction l generalizing s with
  | nil =>
      refine ⟨rfl, rfl, rfl, hinv, ?_⟩
      have hv : gateVal s < 16777216 := by
        obtain ⟨h1, h2, _, _⟩ := hinv
        unfold gateVal
        omega
      simp [gateRun, numEdges, Nat.mod_eq_of_lt hv]
  | cons e t ih =>
      have hrun : gateRun s (e :: t) = gateRun (gateStep s e) t := rfl
      cases e with
      | edge =>
          obtain ⟨hval, hinv2, hc1, hc2, hc3⟩ := gateStep_edge s hinv
          have ht : numT2 t = 0 := by
            rw [numT2_cons_edge] at h0; exact h0
          obtain ⟨i1, i2, i3, i4, i5⟩ := ih (gateStep s GateEv.edge) ht hinv2
          rw [hrun]
          refine ⟨?_, ?_, ?_, i4, ?_⟩
          · rw [i1, hc3]
          · rw [i2, hc1]
          · rw [i3, hc2]
          · rw [i5, hval, numEdges_cons_edge]
            omega
      | t2ovf =>
          exfalso
          rw [numT2_cons_t2] at h0
          omega

theorem lorDisjoint (a b : ℕ) (hb : b < 65536) : (a <<< 16) ||| b = a * 65536 + b := by
  have hp : (2 : ℕ) ^ 16 = 65536 := by norm_num
  have hb2 : b < 2 ^ 16 := by rw [hp]; exact hb
  have key : (a <<< 16) ||| b = 2 ^ 16 * a + b := by
    apply Nat.eq_of_testBit_eq
    intro i
    rw [Nat.testBit_or, Nat.testBit_shiftLeft, Nat.testBit_mul_pow_two_add a hb2 i]
    by_cases hi : i < 16
    · have h16 : ¬ (16 ≤ i) := by omega
      simp [hi, h16]
    · have h16 : 16 ≤ i := by omega
      have hbf : b.testBit i = false :=
        Nat.testBit_lt_two_pow (lt_of_lt_of_le hb2 (Nat.pow_le_pow_right (by norm_num) h16))
      simp [hi, h16, hbf]
  rw [key, hp, Nat.mul_comm]

theorem SEGS_PER_GATE_eq : SEGS_PER_GATE = 6 := rfl

theorem shiftLeft16 (a : ℕ) : a <<< 16 = a * 65536 := by
  rw [Nat.shiftLeft_eq]

theorem gateRun_append (s : GateState) (l1 l2 : List GateEv) :
    gateRun s (l1 ++ l2) = gateRun (gateRun s l1) l2 := by
  simp [gateRun]

theorem numT2_append (l1 l2 : List GateEv) : numT2 (l1 ++ l2) = numT2 l1 + numT2 l2 := by
  simp [numT2, List.countP_append]

/-- State of the shared counters just after one full gate completes: the
countdown reached zero, the snapshot copies hold the values the Timer-2
handler captured at that instant, and the live counters were reset. -/
theorem gateCycle (s0 : GateState) (pre : List GateEv)
    (hseg : s0.vGateSegCountdown = SEGS_PER_GATE)
    (hinv : GateInv s0)
    (hpre : numT2 pre = 5) :
    gateRun s0 (pre ++ [GateEv.t2ovf]) =
      { vGateSegCountdown := 0, TCNT1 := 0, vCtr1OvrFlows := 0,
        vCtr1OvrFlowsCopy := (gateRun s0 pre).vCtr1OvrFlows,
        vCtr1Copy := (gateRun s0 pre).TCNT1 } := by
  have h6 : s0.vGateSegCountdown = 6 := by rw [hseg, SEGS_PER_GATE_eq]
  have hk : (numT2 pre : Int) < s0.vGateSegCountdown := by
    rw [h6, hpre]
    norm_num
  obtain ⟨p1, p2, p3, p4, p5⟩ := gateRun_noSnap pre s0 (by omega) hk hinv
  have hsegPre : (gateRun s0 pre).vGateSegCountdown = 1 := by
    rw [p1, h6, hpre]
    norm_num
  rw [gateRun_append]
  have hone : gateRun (gateRun s0 pre) [GateEv.t2ovf] = gateStep (gateRun s0 pre) GateEv.t2ovf := rfl
  rw [hone, gateStep_t2_snap (gateRun s0 pre) hsegPre]

/-- C1: for every valid gate-segment sequence (a fresh gate of SEGS_PER_GATE
Timer-2 segments, with arbitrary interleaved input edges and arbitrary
trailing edges after the final segment), `getGatedCount` returns exactly
`(vCtr1OvrFlowsCopy << 16) | vCtr1Copy`, where both snapshot fields are the
values held by the live counters at the instant the Timer-2 overflow handler
decremented the segment countdown to zero; the returned value collects the
carried-over counts plus exactly the edges before that instant, and the
edges after it are retained in the live counters for the next call, so
consecutive calls never return a stale or double-counted value. -/
theorem getGatedCount_returns_snapshot (s0 : GateState) (pre post : List GateEv)
    (hseg : s0.vGateSegCountdown = SEGS_PER_GATE)
    (hinv : GateInv s0)
    (hpre : numT2 pre = 5)
    (hpost : numT2 post = 0) :
    (gateRun s0 ((pre ++ [GateEv.t2ovf]) ++ post)).vGateSegCountdown = 0 ∧
    (getGatedCount (gateRun s0 ((pre ++ [GateEv.t2ovf]) ++ post))).2
      = (gateRun s0 pre).vCtr1OvrFlows * 65536 + (gateRun s0 pre).TCNT1 ∧
    (getGatedCount (gateRun s0 ((pre ++ [GateEv.t2ovf]) ++ post))).2
      = ((gateRun s0 ((pre ++ [GateEv.t2ovf]) ++ post)).vCtr1OvrFlowsCopy <<< 16)
          ||| (gateRun s0 ((pre ++ [GateEv.t2ovf]) ++ post)).vCtr1Copy ∧
    (getGatedCount (gateRun s0 ((pre ++ [GateEv.t2ovf]) ++ post))).2
      = (gateVal s0 + numEdges pre) % 16777216 ∧
    (getGatedCount (gateRun s0 ((pre ++ [GateEv.t2ovf]) ++ post))).1.vGateSegCountdown
      = SEGS_PER_GATE ∧
    gateVal (gateRun s0 ((pre ++ [GateEv.t2ovf]) ++ post)) = numEdges post % 16777216 := by
  have h6 : s0.vGateSegCountdown = 6 := by rw [hseg, SEGS_PER_GATE_eq]
  have hk : (numT2 pre : Int) < s0.vGateSegCountdown := by
    rw [h6, hpre]
    norm_num
  obtain ⟨p1, p2, p3, p4, p5⟩ := gateRun_noSnap pre s0 (by omega) hk hinv
  have hsnap := gateCycle s0 pre hseg hinv hpre
  have hinvPre := p4
  obtain ⟨q1, q2, q3, q4⟩ := hinvPre
  have hinvSnap : GateInv (gateRun s0 (pre ++ [GateEv.t2ovf])) := by
    rw [hsnap]
    exact ⟨by norm_num, by norm_num, q1, q2⟩
  have hrw : gateRun s0 ((pre ++ [GateEv.t2ovf]) ++ post)
      = gateRun (gateRun s0 (pre ++ [GateEv.t2ovf])) post := gateRun_append s0 _ post
  obtain ⟨e1, e2, e3, e4, e5⟩ := gateRun_edges post (gateRun s0 (pre ++ [GateEv.t2ovf])) hpost hinvSnap
  have hcopyO : (gateRun s0 ((pre ++ [GateEv.t2ovf]) ++ post)).vCtr1OvrFlowsCopy
      = (gateRun s0 pre).vCtr1OvrFlows := by
    rw [hrw, e2, hsnap]
  have hcopyC : (gateRun s0 ((pre ++ [GateEv.t2ovf]) ++ post)).vCtr1Copy
      = (gateRun s0 pre).TCNT1 := by
    rw [hrw, e3, hsnap]
  have hret : (getGatedCount (gateRun s0 ((pre ++ [GateEv.t2ovf]) ++ post))).2
      = (gateRun s0 pre).vCtr1OvrFlows * 65536 + (gateRun s0 pre).TCNT1 := by
    unfold getGatedCount
    dsimp
    rw [hcopyO, hcopyC, shiftLeft16]
  refine ⟨?_, hret, ?_, ?_, rfl, ?_⟩
  · rw [hrw, e1, hsnap]
  · unfold getGatedCount
    dsimp
    rw [lorDisjoint _ _ ?hb, shiftLeft16]
    case hb =>
      rw [hcopyC]
      exact q1
  · rw [hret]
    exact p5
  · rw [hrw, e5, hsnap]
    simp [gateVal]

/-- A concrete fresh gate state for exercising the gated-counter theorems. -/
def c1s0 : GateState := ⟨6, 0, 0, 0, 0⟩

/-- A concrete gate prefix with five Timer-2 segment boundaries and three edges. -/
def c1pre : List GateEv :=
  [GateEv.edge, GateEv.t2ovf, GateEv.edge, GateEv.t2ovf, GateEv.t2ovf,
   GateEv.edge, GateEv.t2ovf, GateEv.t2ovf]

/-- Two trailing edges arriving after the snapshot. -/
def c1post : List GateEv := [GateEv.edge, GateEv.edge]

/-- Witness for the C1 theorem at a concrete gate-segment sequence. -/
theorem getGatedCount_returns_snapshot_witness :
    numT2 c1pre = 5 ∧
    ((gateRun c1s0 ((c1pre ++ [GateEv.t2ovf]) ++ c1post)).vGateSegCountdown = 0 ∧
     (getGatedCount (gateRun c1s0 ((c1pre ++ [GateEv.t2ovf]) ++ c1post))).2
       = (gateRun c1s0 c1pre).vCtr1OvrFlows * 65536 + (gateRun c1s0 c1pre).TCNT1 ∧
     (getGatedCount (gateRun c1s0 ((c1pre ++ [GateEv.t2ovf]) ++ c1post))).2
       = ((gateRun c1s0 ((c1pre ++ [GateEv.t2ovf]) ++ c1post)).vCtr1OvrFlowsCopy <<< 16)
           ||| (gateRun c1s0 ((c1pre ++ [GateEv.t2ovf]) ++ c1post)).vCtr1Copy ∧
     (getGatedCount (gateRun c1s0 ((c1pre ++ [GateEv.t2ovf]) ++ c1post))).2
       = (gateVal c1s0 + numEdges c1pre) % 16777216 ∧
     (getGatedCount (gateRun c1s0 ((c1pre ++ [GateEv.t2ovf]) ++ c1post))).1.vGateSegCountdown
       = SEGS_PER_GATE ∧
     gateVal (gateRun c1s0 ((c1pre ++ [GateEv.t2ovf]) ++ c1post)) = numEdges c1post % 16777216) :=
  ⟨by decide,
   getGatedCount_returns_snapshot c1s0 c1pre c1post (by decide) (by decide) (by decide) (by decide)⟩

/-- C2: once the busy-wait observes the gate-complete condition
(`vGateSegCountdown = 0`), `getGatedCount` re-arms the countdown to
SEGS_PER_GATE as its first action, before reading the snapshot fields:
interrupt events interleaved after the re-arm (fewer than SEGS_PER_GATE
segment boundaries, the gate being ~98 ms long) cannot disturb the returned
value, which equals the atomic read; the fresh cycle needs exactly
SEGS_PER_GATE further segment boundaries to complete (fewer never complete
it nor retake a snapshot); and edges arriving during the call accumulate for
the next cycle instead of leaking into the returned value. -/
theorem getGatedCount_rearm_first (s : GateState) (mid evs pre2 : List GateEv)
    (hseg : s.vGateSegCountdown = 0)
    (hinv : GateInv s)
    (hmid : numT2 mid ≤ 5)
    (hevs : numT2 evs < 6)
    (hpre2 : numT2 pre2 = 5) :
    (getGatedCountI s mid).2 = (getGatedCount s).2 ∧
    (getGatedCountI s mid).2 = (s.vCtr1OvrFlowsCopy <<< 16) + s.vCtr1Copy ∧
    ({ s with vGateSegCountdown := SEGS_PER_GATE } : GateState).vGateSegCountdown
      = SEGS_PER_GATE ∧
    gateVal (getGatedCountI s mid).1 = (gateVal s + numEdges mid) % 16777216 ∧
    1 ≤ (gateRun { s with vGateSegCountdown := SEGS_PER_GATE } evs).vGateSegCountdown ∧
    (gateRun { s with vGateSegCountdown := SEGS_PER_GATE } evs).vCtr1OvrFlowsCopy
      = s.vCtr1OvrFlowsCopy ∧
    (gateRun { s with vGateSegCountdown := SEGS_PER_GATE } evs).vCtr1Copy = s.vCtr1Copy ∧
    (gateRun { s with vGateSegCountdown := SEGS_PER_GATE }
        (pre2 ++ [GateEv.t2ovf])).vGateSegCountdown = 0 := by
  have hinv1 : GateInv ({ s with vGateSegCountdown := SEGS_PER_GATE } : GateState) := hinv
  have hs1 : ({ s with vGateSegCountdown := SEGS_PER_GATE } : GateState).vGateSegCountdown
      = 6 := rfl
  have hone : (1 : Int) ≤ ({ s with vGateSegCountdown := SEGS_PER_GATE } :
      GateState).vGateSegCountdown := by
    rw [hs1]
    norm_num
  have hkmid : (numT2 mid : Int) < ({ s with vGateSegCountdown := SEGS_PER_GATE } :
      GateState).vGateSegCountdown := by
    rw [hs1]
    omega
  obtain ⟨m1, m2, m3, m4, m5⟩ :=
    gateRun_noSnap mid { s with vGateSegCountdown := SEGS_PER_GATE } hone hkmid hinv1
  have hkevs : (numT2 evs : Int) < ({ s with vGateSegCountdown := SEGS_PER_GATE } :
      GateState).vGateSegCountdown := by
    rw [hs1]
    omega
  obtain ⟨v1, v2, v3, v4, v5⟩ :=
    gateRun_noSnap evs { s with vGateSegCountdown := SEGS_PER_GATE } hone hkevs hinv1
  refine ⟨?_, ?_, rfl, ?_, ?_, v2, v3, ?_⟩
  · unfold getGatedCountI getGatedCount
    dsimp
    rw [m2, m3]
  · unfold getGatedCountI
    dsimp
    rw [m2, m3]
  · exact m5
  · rw [v1, hs1]
    omega
  · rw [gateCycle { s with vGateSegCountdown := SEGS_PER_GATE } pre2 rfl hinv1 hpre2]

/-- `const int NO_BUTS_THRESH = 853` -/
def NO_BUTS_THRESH : ℕ := 853

/-- `const int BTN_UP_THRESH = 511` -/
def BTN_UP_THRESH : ℕ := 511

/-- `const int BTN_LOCK_THRESH = 171` -/
def BTN_LOCK_THRESH : ℕ := 171

/-- `const int NUM_ACCUM_LOOPS = 10` (local to `doCalib`). -/
def NUM_ACCUM_LOOPS : ℕ := 10

/-- The globals of the sketch that the control logic reads and writes:
`uint32_t fDDS`, `bool trackMode`, `bool lockMode`, the `static bool
oldLockBtnPressed` of `CheckCtrlPins`, `double scaleFactor`, the `double`
stored at EEPROM address `EE_ADDRESS`, and the frequency most recently
latched into the AD9850 synthesizer. -/
structure Sys where
  fDDS : ℕ
  trackMode : Bool
  lockMode : Bool
  oldLockBtnPressed : Bool
  scaleFactor : ℚ
  eepromRatio : ℚ
  synthFreq : ℕ
deriving DecidableEq, Repr

/-- The guard of `ddsSetFreq`: `(fDDS > F_MIN) && (fDDS < F_MAX)`. -/
def ddsTransmits (f : ℕ) : Bool := decide (F_MIN < f) && decide (f < F_MAX)

/-- The warning branch of `ddsSetFreq` prints the out-of-range diagnostic. -/
def ddsWarns (f : ℕ) : Bool := ! ddsTransmits f

/-- `ddsSetFreq(f)`: transmits the tuning word (latching frequency `f` into
the synthesizer) only when the guard holds; otherwise it prints the warning
and leaves the synthesizer state unchanged. -/
def ddsSetFreq (st : Sys) (f : ℕ) : Sys :=
  if ddsTransmits f then { st with synthFreq := f } else st

/-- `CheckCtrlPins()`: reads the VFO-enable sense pin (`vfoDC`, the raw
`digitalRead(pinVfoDC)`) and the analog button value `valA`
(`analogRead(pinBtns)`).  Sets `trackMode = !vfoDC`; then: no button resets
the lock edge-detector; the lock button toggles `lockMode` only if released
since the previous press; otherwise, when not tracking, a nudge button
adjusts `fDDS` by 5 (inverted direction) and calls `ddsSetFreq(fDDS)`. -/
def CheckCtrlPins (st : Sys) (vfoDC : Bool) (valA : ℕ) : Sys :=
  if NO_BUTS_THRESH < valA then
    { st with trackMode := !vfoDC, oldLockBtnPressed := false }
  else if valA < BTN_LOCK_THRESH then
    if st.oldLockBtnPressed then
      { st with trackMode := !vfoDC }
    else
      { st with trackMode := !vfoDC, lockMode := !st.lockMode, oldLockBtnPressed := true }
  else if !vfoDC then
    { st with trackMode := !vfoDC }
  else if valA < BTN_UP_THRESH then
    ddsSetFreq { st with trackMode := !vfoDC, fDDS := (st.fDDS + 5) % 4294967296 }
      ((st.fDDS + 5) % 4294967296)
  else
    ddsSetFreq { st with trackMode := !vfoDC, fDDS := (st.fDDS + 4294967296 - 5) % 4294967296 }
      ((st.fDDS + 4294967296 - 5) % 4294967296)

/-- The `uint32_t` conversion in `fDDS = gatedCount * scaleFactor`:
the `double` product truncated to an unsigned 32-bit integer. -/
def resolveU32 (c : ℕ) (sf : ℚ) : ℕ := (Int.toNat (Int.floor ((c : ℚ) * sf))) % 4294967296

/-- One iteration of `loop()` (the on-board LED toggle is omitted): obtain
the gated count, run `CheckCtrlPins`, and if tracking and not locked set
`fDDS = gatedCount * scaleFactor` and call `ddsSetFreq(fDDS)`. -/
def loopStep (st : Sys) (vfoDC : Bool) (valA : ℕ) (gatedCount : ℕ) : Sys :=
  if (CheckCtrlPins st vfoDC valA).trackMode && ! (CheckCtrlPins st vfoDC valA).lockMode then
    ddsSetFreq
      { CheckCtrlPins st vfoDC valA with
          fDDS := resolveU32 gatedCount (CheckCtrlPins st vfoDC valA).scaleFactor }
      (resolveU32 gatedCount (CheckCtrlPins st vfoDC valA).scaleFactor)
  else
    CheckCtrlPins st vfoDC valA

/-- Iterated control cycles; each input is (vfoDC reading, analog button
value, gated count delivered by `getGatedCount`). -/
def runLoop (st : Sys) (ins : List (Bool × ℕ × ℕ)) : Sys :=
  List.foldl (fun s i => loopStep s i.1 i.2.1 i.2.2) st ins

/-- The 10 gated-count measurements consumed by one outer calibration pass,
drawn from the stream `counts` starting at measurement index `start`. -/
def measListPass (counts : ℕ → ℕ) (start : ℕ) : List ℕ :=
  List.map (fun i => counts (start + i)) (List.range NUM_ACCUM_LOOPS)

/-- The inner accumulation loop of `doCalib`:
`countAccum += getGatedCount()` ten times into a `uint32_t`. -/
def accumPass (counts : ℕ → ℕ) (start : ℕ) : ℕ :=
  List.foldl (fun acc x => (acc + x) % 4294967296) 0 (measListPass counts start)

/-- The exact (unwrapped) sum of one pass's measurements. -/
def sumCounts (counts : ℕ → ℕ) (start : ℕ) : ℕ := List.sum (measListPass counts start)

/-- One outer pass of `doCalib`:
`fAv = (countAccum * scaleFactor) / NUM_ACCUM_LOOPS`. -/
def fAvPass (counts : ℕ → ℕ) (sf : ℚ) (start : ℕ) : ℚ :=
  ((accumPass counts start : ℚ) * sf) / (NUM_ACCUM_LOOPS : ℚ)

/-- One outer pass of `doCalib`: `calRatio = (double)F_MID / fAv`. -/
def calibPassRatio (counts : ℕ → ℕ) (sf : ℚ) (start : ℕ) : ℚ :=
  (F_MID : ℚ) / fAvPass counts sf start

/-- The value of `calRatio` (initialised to 1.0) after the eight outer
passes of `doCalib`, each pass consuming ten fresh measurements and
overwriting `calRatio`. -/
def doCalibRatio (counts : ℕ → ℕ) (sf : ℚ) : ℚ :=
  List.foldl (fun _r j => calibPassRatio counts sf (j * NUM_ACCUM_LOOPS)) 1 (List.range 8)

/-- `doCalib()`: sets the synthesizer to F_MID, runs the eight measurement
passes, then validates `(calRatio > 0.95) && (calRatio < 1.05)`; if valid,
writes `calRatio` to EEPROM and sets `lockMode = true`; otherwise only the
diagnostic is printed and nothing is persisted. -/
def doCalib (counts : ℕ → ℕ) (st : Sys) : Sys :=
  if 0.95 < doCalibRatio counts (ddsSetFreq st F_MID).scaleFactor ∧
      doCalibRatio counts (ddsSetFreq st F_MID).scaleFactor < 1.05 then
    { ddsSetFreq st F_MID with
        eepromRatio := doCalibRatio counts (ddsSetFreq st F_MID).scaleFactor,
        lockMode := true }
  else
    ddsSetFreq st F_MID

/-- `getStoredCalib()`: reads `calRatio` from EEPROM; if
`(calRatio > 0.95) && (calRatio < 1.05)` then
`scaleFactor = calRatio / GATE_DUR`, else `scaleFactor` is left as is. -/
def getStoredCalib (st : Sys) : Sys :=
  if 0.95 < st.eepromRatio ∧ st.eepromRatio < 1.05 then
    { st with scaleFactor := st.eepromRatio / GATE_DUR }
  else st

/-- The frequency resolver `f = gatedCount * scaleFactor` as the exact
rational value, before the `uint32_t` truncation. -/
def resolveFreq (count : ℕ) (sf : ℚ) : ℚ := (count : ℚ) * sf

theorem ddsSetFreq_scaleFactor (st : Sys) (f : ℕ) :
    (ddsSetFreq st f).scaleFactor = st.scaleFactor := by
  unfold ddsSetFreq
  split <;> rfl

theorem ddsSetFreq_fDDS (st : Sys) (f : ℕ) : (ddsSetFreq st f).fDDS = st.fDDS := by
  unfold ddsSetFreq
  split <;> rfl

theorem ddsSetFreq_lockMode (st : Sys) (f : ℕ) : (ddsSetFreq st f).lockMode = st.lockMode := by
  unfold ddsSetFreq
  split <;> rfl

theorem ddsSetFreq_oldLock (st : Sys) (f : ℕ) :
    (ddsSetFreq st f).oldLockBtnPressed = st.oldLockBtnPressed := by
  unfold ddsSetFreq
  split <;> rfl

theorem ddsSetFreq_eeprom (st : Sys) (f : ℕ) :
    (ddsSetFreq st f).eepromRatio = st.eepromRatio := by
  unfold ddsSetFreq
  split <;> rfl

/-- C3 counterexample: at the boundary frequency f = F_MIN = 4950000 the
claimed equivalence "a command is transmitted iff f lies within the closed
band [F_MIN, F_MAX]" is false: 4950000 is in the closed band, yet
`ddsSetFreq` suppresses the command (`fDDS > F_MIN` is strict). -/
theorem ddsSetFreq_closed_band_false :
    ¬ (ddsTransmits 4950000 = true ↔ (F_MIN ≤ 4950000 ∧ 4950000 ≤ F_MAX)) := by
  decide

/-- C3 (amended): `ddsSetFreq` transmits a command to the synthesizer iff
the frequency lies strictly inside (F_MIN, F_MAX); for any frequency outside
that open band the command is suppressed, the out-of-range diagnostic is
emitted, and the synthesizer state is left unchanged. -/
theorem ddsSetFreq_range_guard (f : ℕ) (st : Sys) :
    (ddsTransmits f = true ↔ (F_MIN < f ∧ f < F_MAX)) ∧
    (ddsTransmits f = true → ddsSetFreq st f = { st with synthFreq := f }) ∧
    (ddsTransmits f = false →
      ddsSetFreq st f = st ∧ (ddsSetFreq st f).synthFreq = st.synthFreq ∧ ddsWarns f = true) := by
  refine ⟨?_, ?_, ?_⟩
  · unfold ddsTransmits
    simp
  · intro h
    unfold ddsSetFreq
    rw [h]
    simp
  · intro h
    unfold ddsSetFreq ddsWarns
    rw [h]
    simp

/-- A concrete system state used by the range-guard witness. -/
def c3st : Sys := ⟨5250000, false, false, false, scaleFactorInit, 1, 5250000⟩

/-- Witness for the C3 amended theorem at the out-of-band frequency 5550000
(= F_MAX, suppressed) applied to a concrete state. -/
theorem ddsSetFreq_range_guard_witness :
    (ddsTransmits 5550000 = true ↔ (F_MIN < 5550000 ∧ 5550000 < F_MAX)) ∧
    (ddsTransmits 5550000 = true → ddsSetFreq c3st 5550000 = { c3st with synthFreq := 5550000 }) ∧
    (ddsTransmits 5550000 = false →
      ddsSetFreq c3st 5550000 = c3st ∧ (ddsSetFreq c3st 5550000).synthFreq = c3st.synthFreq ∧
      ddsWarns 5550000 = true) :=
  ddsSetFreq_range_guard 5550000 c3st

theorem NUM_ACCUM_LOOPS_eq : NUM_ACCUM_LOOPS = 10 := rfl

/-- C4: after the final pass, `doCalib` validates the computed ratio against
the open interval (0.95, 1.05): exactly 0.95 or 1.05 is rejected while 0.951
and 1.049 are accepted; a valid ratio is written to EEPROM and the system
enters the locked output state; an invalid ratio is discarded, leaving the
prior persisted EEPROM value and lock state untouched. -/
theorem doCalib_boundary (counts : ℕ → ℕ) (st : Sys) (r : ℚ)
    (hr : doCalibRatio counts st.scaleFactor = r) :
    ((r = 0.95 ∨ r = 1.05) → doCalib counts st = ddsSetFreq st F_MID) ∧
    ((r = 0.951 ∨ r = 1.049) →
      doCalib counts st = { ddsSetFreq st F_MID with eepromRatio := r, lockMode := true }) ∧
    (0.95 < r ∧ r < 1.05 →
      (doCalib counts st).eepromRatio = r ∧ (doCalib counts st).lockMode = true) ∧
    (¬ (0.95 < r ∧ r < 1.05) →
      (doCalib counts st).eepromRatio = st.eepromRatio ∧
      (doCalib counts st).lockMode = st.lockMode) := by
  have hr2 : doCalibRatio counts (ddsSetFreq st F_MID).scaleFactor = r := by
    rw [ddsSetFreq_scaleFactor]
    exact hr
  unfold doCalib
  rw [hr2]
  refine ⟨?_, ?_, ?_, ?_⟩
  · rintro (h | h) <;> subst h <;> rw [if_neg (by norm_num)]
  · rintro (h | h) <;> subst h <;> rw [if_pos (by norm_num)]
  · intro h
    rw [if_pos h]
    exact ⟨rfl, rfl⟩
  · intro h
    rw [if_neg h]
    exact ⟨ddsSetFreq_eeprom st F_MID, ddsSetFreq_lockMode st F_MID⟩

/-- A constant measurement stream: every gated count reads 500000. -/
def c4counts : ℕ → ℕ := fun _k => 500000

/-- A concrete startup state (nominal scale factor, ratio 1 persisted). -/
def c4st : Sys := ⟨5250000, false, false, false, scaleFactorInit, 1, 5250000⟩

/-- Witness for the C4 theorem with a concrete measurement stream. -/
theorem doCalib_boundary_witness :
    ((doCalibRatio c4counts c4st.scaleFactor = 0.95 ∨
      doCalibRatio c4counts c4st.scaleFactor = 1.05) →
      doCalib c4counts c4st = ddsSetFreq c4st F_MID) ∧
    ((doCalibRatio c4counts c4st.scaleFactor = 0.951 ∨
      doCalibRatio c4counts c4st.scaleFactor = 1.049) →
      doCalib c4counts c4st =
        { ddsSetFreq c4st F_MID with
            eepromRatio := doCalibRatio c4counts c4st.scaleFactor, lockMode := true }) ∧
    (0.95 < doCalibRatio c4counts c4st.scaleFactor ∧
        doCalibRatio c4counts c4st.scaleFactor < 1.05 →
      (doCalib c4counts c4st).eepromRatio = doCalibRatio c4counts c4st.scaleFactor ∧
      (doCalib c4counts c4st).lockMode = true) ∧
    (¬ (0.95 < doCalibRatio c4counts c4st.scaleFactor ∧
        doCalibRatio c4counts c4st.scaleFactor < 1.05) →
      (doCalib c4counts c4st).eepromRatio = c4st.eepromRatio ∧
      (doCalib c4counts c4st).lockMode = c4st.lockMode) :=
  doCalib_boundary c4counts c4st (doCalibRatio c4counts c4st.scaleFactor) rfl

theorem foldl_mod_add (l : List ℕ) (a : ℕ) :
    List.foldl (fun acc x => (acc + x) % 4294967296) (a % 4294967296) l
      = (a + List.sum l) % 4294967296 := by
  induction l generalizing a with
  | nil => simp
  | cons x t ih =>
      simp only [List.foldl_cons, List.sum_cons]
      have h1 : (a % 4294967296 + x) % 4294967296 = (a + x) % 4294967296 := by omega
      rw [h1, ih]
      omega

theorem accumPass_eq_sum (counts : ℕ → ℕ) (start : ℕ) :
    accumPass counts start = sumCounts counts start % 4294967296 := by
  unfold accumPass sumCounts
  have h := foldl_mod_add (measListPass counts start) 0
  simpa using h

/-- C5: `doCalib` performs exactly 8 outer passes of exactly 10 accumulated
measurements each (the final ratio is the 8th pass's ratio, and the result
depends only on the first 80 measurements); each pass averages its 10
counts, computes the measured frequency as average × the scale factor, and
the ratio as F_MID divided by the measured frequency; the scale factor used
is the one at entry for all passes (`doCalib` never modifies it). -/
theorem doCalib_structure (counts c2 : ℕ → ℕ) (sf : ℚ) (st : Sys) (j : ℕ)
    (hj : j < 8)
    (hsum : sumCounts counts (j * NUM_ACCUM_LOOPS) < 4294967296)
    (hagree : ∀ k, k < 80 → counts k = c2 k) :
    doCalibRatio counts sf = calibPassRatio counts sf (7 * NUM_ACCUM_LOOPS) ∧
    calibPassRatio counts sf (j * NUM_ACCUM_LOOPS)
      = (F_MID : ℚ) /
          (((sumCounts counts (j * NUM_ACCUM_LOOPS) : ℚ) / (NUM_ACCUM_LOOPS : ℚ)) * sf) ∧
    (doCalib counts st).scaleFactor = st.scaleFactor ∧
    doCalibRatio counts sf = doCalibRatio c2 sf := by
  refine ⟨rfl, ?_, ?_, ?_⟩
  · unfold calibPassRatio fAvPass
    rw [accumPass_eq_sum, Nat.mod_eq_of_lt hsum]
    rw [show ((sumCounts counts (j * NUM_ACCUM_LOOPS) : ℚ) * sf) / (NUM_ACCUM_LOOPS : ℚ)
        = ((sumCounts counts (j * NUM_ACCUM_LOOPS) : ℚ) / (NUM_ACCUM_LOOPS : ℚ)) * sf
        from by ring]
  · unfold doCalib
    split
    · exact ddsSetFreq_scaleFactor st F_MID
    · exact ddsSetFreq_scaleFactor st F_MID
  · have hlist : measListPass counts (7 * NUM_ACCUM_LOOPS)
        = measListPass c2 (7 * NUM_ACCUM_LOOPS) := by
      unfold measListPass
      apply List.map_congr_left
      intro i hi
      have hi10 : i < 10 := by
        rw [NUM_ACCUM_LOOPS_eq] at hi
        exact List.mem_range.mp hi
      apply hagree
      rw [NUM_ACCUM_LOOPS_eq]
      omega
    have e1 : doCalibRatio counts sf = calibPassRatio counts sf (7 * NUM_ACCUM_LOOPS) := rfl
    have e2 : doCalibRatio c2 sf = calibPassRatio c2 sf (7 * NUM_ACCUM_LOOPS) := rfl
    rw [e1, e2]
    unfold calibPassRatio fAvPass accumPass
    rw [hlist]

/-- A second measurement stream agreeing with `c4counts` on the first 80
measurements only. -/
def c5alt : ℕ → ℕ := fun k => if k < 80 then 500000 else 0

/-- Witness for the C5 theorem: constant 500000-count stream, pass j = 3. -/
theorem doCalib_structure_witness :
    doCalibRatio c4counts scaleFactorInit
      = calibPassRatio c4counts scaleFactorInit (7 * NUM_ACCUM_LOOPS) ∧
    calibPassRatio c4counts scaleFactorInit (3 * NUM_ACCUM_LOOPS)
      = (F_MID : ℚ) /
          (((sumCounts c4counts (3 * NUM_ACCUM_LOOPS) : ℚ) / (NUM_ACCUM_LOOPS : ℚ)) *
            scaleFactorInit) ∧
    (doCalib c4counts c4st).scaleFactor = c4st.scaleFactor ∧
    doCalibRatio c4counts scaleFactorInit = doCalibRatio c5alt scaleFactorInit :=
  doCalib_structure c4counts c5alt scaleFactorInit c4st 3 (by norm_num) (by decide) (by decide)

/-- C6: `getStoredCalib` reads the persisted ratio; a value strictly inside
(0.95, 1.05) makes the scale factor ratio / GATE_DUR, any other value leaves
the scale factor at its startup value 1.0 / GATE_DUR; in particular a
persisted ratio of exactly 1.0 reads back to a scale factor equal to
1.0 / GATE_DUR, identical to the uncalibrated value. -/
theorem getStoredCalib_spec (st : Sys) (hsf : st.scaleFactor = scaleFactorInit) :
    (0.95 < st.eepromRatio ∧ st.eepromRatio < 1.05 →
      (getStoredCalib st).scaleFactor = st.eepromRatio / GATE_DUR) ∧
    (¬ (0.95 < st.eepromRatio ∧ st.eepromRatio < 1.05) →
      (getStoredCalib st).scaleFactor = scaleFactorInit ∧ getStoredCalib st = st) ∧
    (st.eepromRatio = 1 →
      (getStoredCalib st).scaleFactor = 1 / GATE_DUR ∧
      (getStoredCalib st).scaleFactor = scaleFactorInit) := by
  refine ⟨?_, ?_, ?_⟩
  · intro h
    unfold getStoredCalib
    rw [if_pos h]
  · intro h
    unfold getStoredCalib
    rw [if_neg h]
    exact ⟨hsf, rfl⟩
  · intro h
    unfold getStoredCalib
    rw [if_pos (by rw [h]; norm_num)]
    dsimp
    rw [h]
    exact ⟨rfl, rfl⟩

/-- Witness for the C6 theorem: startup state with ratio 1.0 persisted. -/
theorem getStoredCalib_spec_witness :
    (0.95 < c4st.eepromRatio ∧ c4st.eepromRatio < 1.05 →
      (getStoredCalib c4st).scaleFactor = c4st.eepromRatio / GATE_DUR) ∧
    (¬ (0.95 < c4st.eepromRatio ∧ c4st.eepromRatio < 1.05) →
      (getStoredCalib c4st).scaleFactor = scaleFactorInit ∧ getStoredCalib c4st = c4st) ∧
    (c4st.eepromRatio = 1 →
      (getStoredCalib c4st).scaleFactor = 1 / GATE_DUR ∧
      (getStoredCalib c4st).scaleFactor = scaleFactorInit) :=
  getStoredCalib_spec c4st rfl

theorem ddsSetFreq_trackMode (st : Sys) (f : ℕ) :
    (ddsSetFreq st f).trackMode = st.trackMode := by
  unfold ddsSetFreq
  split <;> rfl

theorem CheckCtrlPins_tracking (st : Sys) (v : ℕ) (hv : BTN_LOCK_THRESH ≤ v) :
    CheckCtrlPins st false v
      = if NO_BUTS_THRESH < v then
          { st with trackMode := true, oldLockBtnPressed := false }
        else
          { st with trackMode := true } := by
  unfold CheckCtrlPins
  have hnl : ¬ (v < BTN_LOCK_THRESH) := by omega
  by_cases h8 : NO_BUTS_THRESH < v
  · rw [if_pos h8, if_pos h8]
    rfl
  · rw [if_neg h8, if_neg h8, if_neg hnl]
    rfl

theorem CheckCtrlPins_nudge (st : Sys) (v : ℕ)
    (hv1 : BTN_LOCK_THRESH ≤ v) (hv2 : v ≤ NO_BUTS_THRESH) :
    CheckCtrlPins st true v
      = if v < BTN_UP_THRESH then
          ddsSetFreq { st with trackMode := false, fDDS := (st.fDDS + 5) % 4294967296 }
            ((st.fDDS + 5) % 4294967296)
        else
          ddsSetFreq
            { st with trackMode := false, fDDS := (st.fDDS + 4294967296 - 5) % 4294967296 }
            ((st.fDDS + 4294967296 - 5) % 4294967296) := by
  unfold CheckCtrlPins
  have h8 : ¬ (NO_BUTS_THRESH < v) := by omega
  have hnl : ¬ (v < BTN_LOCK_THRESH) := by omega
  have hfalse : ¬ ((false : Bool) = true) := by simp
  rw [if_neg h8, if_neg hnl]
  simp only [Bool.not_true]
  rw [if_neg hfalse]

theorem loopStep_trackFollow (st : Sys) (v c : ℕ) (hv1 : BTN_LOCK_THRESH ≤ v)
    (hl : st.lockMode = false) :
    (loopStep st false v c).fDDS = resolveU32 c st.scaleFactor ∧
    (ddsTransmits (resolveU32 c st.scaleFactor) = true →
      (loopStep st false v c).synthFreq = resolveU32 c st.scaleFactor) := by
  unfold loopStep
  rw [CheckCtrlPins_tracking st v hv1]
  by_cases h8 : NO_BUTS_THRESH < v
  · rw [if_pos h8]
    constructor
    · simp [hl, ddsSetFreq_fDDS]
    · intro ht
      simp [hl, ddsSetFreq, ht]
  · rw [if_neg h8]
    constructor
    · simp [hl, ddsSetFreq_fDDS]
    · intro ht
      simp [hl, ddsSetFreq, ht]

theorem loopStep_locked_keep (st : Sys) (v c : ℕ) (hv : BTN_LOCK_THRESH ≤ v)
    (hl : st.lockMode = true) :
    (loopStep st false v c).fDDS = st.fDDS ∧ (loopStep st false v c).lockMode = true := by
  unfold loopStep
  rw [CheckCtrlPins_tracking st v hv]
  by_cases h8 : NO_BUTS_THRESH < v
  · rw [if_pos h8]
    simp [hl]
  · rw [if_neg h8]
    simp [hl]

theorem runLoop_locked (ins : List (Bool × ℕ × ℕ)) (st : Sys)
    (hl : st.lockMode = true)
    (hins : ∀ i ∈ ins, i.1 = false ∧ BTN_LOCK_THRESH ≤ i.2.1) :
    (runLoop st ins).fDDS = st.fDDS ∧ (runLoop st ins).lockMode = true := by
  induction ins generalizing st with
  | nil => exact ⟨rfl, hl⟩
  | cons i t ih =>
      obtain ⟨hi1, hi2⟩ := hins i (List.mem_cons_self i t)
      have hstep := loopStep_locked_keep st i.2.1 i.2.2 hi2 hl
      have hrun : runLoop st (i :: t) = runLoop (loopStep st i.1 i.2.1 i.2.2) t := rfl
      rw [hrun, hi1]
      obtain ⟨ih1, ih2⟩ :=
        ih (loopStep st false i.2.1 i.2.2) hstep.2 (fun j hj => hins j (List.mem_cons_of_mem i hj))
      exact ⟨by rw [ih1, hstep.1], ih2⟩

theorem loopStep_nudge (st : Sys) (v c : ℕ)
    (hv1 : BTN_LOCK_THRESH ≤ v) (hv2 : v ≤ NO_BUTS_THRESH) :
    (v < BTN_UP_THRESH →
      (loopStep st true v c).fDDS = (st.fDDS + 5) % 4294967296) ∧
    (BTN_UP_THRESH ≤ v →
      (loopStep st true v c).fDDS = (st.fDDS + 4294967296 - 5) % 4294967296) := by
  unfold loopStep
  rw [CheckCtrlPins_nudge st v hv1 hv2]
  constructor
  · intro h
    rw [if_pos h]
    simp [ddsSetFreq_trackMode, ddsSetFreq_fDDS]
  · intro h
    have h2 : ¬ (v < BTN_UP_THRESH) := by omega
    rw [if_neg h2]
    simp [ddsSetFreq_trackMode, ddsSetFreq_fDDS]

/-- C7: mode table of the control loop.  Tracking and unlocked: each cycle
sets the commanded frequency to the gated count times the scale factor and
hands it to the synthesizer driver (latched when in band).  Tracking and
locked: the commanded frequency never changes across repeated cycles,
whatever the gated counts.  Not tracking: a cycle whose button read lands in
a nudge band changes the commanded frequency by exactly 5 Hz in the inverted
direction (the up control decreases the value, the down control increases
it). -/
theorem loop_mode_table (sa sb sc : Sys) (va vc ca cc : ℕ) (ins : List (Bool × ℕ × ℕ))
    (hva1 : BTN_LOCK_THRESH ≤ va)
    (ha : sa.lockMode = false)
    (hb : sb.lockMode = true)
    (hins : ∀ i ∈ ins, i.1 = false ∧ BTN_LOCK_THRESH ≤ i.2.1)
    (hvc1 : BTN_LOCK_THRESH ≤ vc) (hvc2 : vc ≤ NO_BUTS_THRESH)
    (h5 : 5 ≤ sc.fDDS) (hc32 : sc.fDDS + 5 < 4294967296) :
    ((loopStep sa false va ca).fDDS = resolveU32 ca sa.scaleFactor ∧
     (ddsTransmits (resolveU32 ca sa.scaleFactor) = true →
       (loopStep sa false va ca).synthFreq = resolveU32 ca sa.scaleFactor)) ∧
    ((runLoop sb ins).fDDS = sb.fDDS ∧ (runLoop sb ins).lockMode = true) ∧
    (vc < BTN_UP_THRESH → (loopStep sc true vc cc).fDDS = sc.fDDS + 5) ∧
    (BTN_UP_THRESH ≤ vc → (loopStep sc true vc cc).fDDS = sc.fDDS - 5) := by
  obtain ⟨n1, n2⟩ := loopStep_nudge sc vc cc hvc1 hvc2
  refine ⟨loopStep_trackFollow sa va ca hva1 ha, runLoop_locked ins sb hb hins, ?_, ?_⟩
  · intro h
    rw [n1 h]
    omega
  · intro h
    rw [n2 h]
    omega

/-- A state with fDDS two nudges below F_MAX, about to be nudged out of band. -/
def c9edge : Sys := ⟨5549998, true, false, false, scaleFactorInit, 1, 5250000⟩

/-- A state whose fDDS is already outside [F_MIN, F_MAX]. -/
def c9outside : Sys := ⟨5550003, true, false, false, scaleFactorInit, 1, 5250000⟩

/-- C9: `fDDS` is never clamped to [F_MIN, F_MAX]: a nudge unconditionally
adds or subtracts 5 (mod 2^32) with no range check, and the tracking update
stores gatedCount × scaleFactor into `fDDS` before any range check, so
`fDDS` can hold out-of-band values; only the transmission inside
`ddsSetFreq` is guarded (suppression leaves the whole state unchanged); and
a subsequent nudge in the opposite direction brings `fDDS` back into the
band, where transmission resumes. -/
theorem fDDS_unclamped (st : Sys) (v c f : ℕ)
    (hv1 : BTN_LOCK_THRESH ≤ v) (hv2 : v ≤ NO_BUTS_THRESH)
    (hl : st.lockMode = false)
    (hf : ddsTransmits f = false) :
    (v < BTN_UP_THRESH → (CheckCtrlPins st true v).fDDS = (st.fDDS + 5) % 4294967296) ∧
    (BTN_UP_THRESH ≤ v →
      (CheckCtrlPins st true v).fDDS = (st.fDDS + 4294967296 - 5) % 4294967296) ∧
    (loopStep st false v c).fDDS = resolveU32 c st.scaleFactor ∧
    ddsSetFreq st f = st ∧
    ((CheckCtrlPins c9edge true 300).fDDS = 5550003 ∧ F_MAX < 5550003 ∧
      (CheckCtrlPins c9edge true 300).synthFreq = c9edge.synthFreq) ∧
    ((CheckCtrlPins c9outside true 600).fDDS = 5549998 ∧
      F_MIN < 5549998 ∧ 5549998 < F_MAX ∧
      (CheckCtrlPins c9outside true 600).synthFreq = 5549998) := by
  refine ⟨?_, ?_, (loopStep_trackFollow st v c hv1 hl).1, ?_, by decide, by decide⟩
  · intro h
    rw [CheckCtrlPins_nudge st v hv1 hv2, if_pos h, ddsSetFreq_fDDS]
  · intro h
    have h2 : ¬ (v < BTN_UP_THRESH) := by omega
    rw [CheckCtrlPins_nudge st v hv1 hv2, if_neg h2, ddsSetFreq_fDDS]
  · unfold ddsSetFreq
    rw [hf]
    simp

/-- Witness for the C9 theorem at a concrete state, nudge value 300,
tracking count 1000000 (which resolves far above F_MAX) and the suppressed
frequency 9999999. -/
theorem fDDS_unclamped_witness :
    (300 < BTN_UP_THRESH → (CheckCtrlPins c4st true 300).fDDS = (c4st.fDDS + 5) % 4294967296) ∧
    (BTN_UP_THRESH ≤ 300 →
      (CheckCtrlPins c4st true 300).fDDS = (c4st.fDDS + 4294967296 - 5) % 4294967296) ∧
    (loopStep c4st false 300 1000000).fDDS = resolveU32 1000000 c4st.scaleFactor ∧
    ddsSetFreq c4st 9999999 = c4st ∧
    ((CheckCtrlPins c9edge true 300).fDDS = 5550003 ∧ F_MAX < 5550003 ∧
      (CheckCtrlPins c9edge true 300).synthFreq = c9edge.synthFreq) ∧
    ((CheckCtrlPins c9outside true 600).fDDS = 5549998 ∧
      F_MIN < 5549998 ∧ 5549998 < F_MAX ∧
      (CheckCtrlPins c9outside true 600).synthFreq = 5549998) :=
  fDDS_unclamped c4st 300 1000000 9999999 (by decide) (by decide) rfl (by decide)

theorem CheckCtrlPins_lockPress (st : Sys) (b : Bool) (v : ℕ) (hv : v < BTN_LOCK_THRESH) :
    CheckCtrlPins st b v
      = if st.oldLockBtnPressed then
          { st with trackMode := !b }
        else
          { st with trackMode := !b, lockMode := !st.lockMode, oldLockBtnPressed := true } := by
  unfold CheckCtrlPins
  have e8 : NO_BUTS_THRESH = 853 := rfl
  have e1 : BTN_LOCK_THRESH = 171 := rfl
  have h8 : ¬ (NO_BUTS_THRESH < v) := by omega
  rw [if_neg h8, if_pos hv]

theorem loopStep_lockbits (st : Sys) (b : Bool) (v c : ℕ) :
    (loopStep st b v c).lockMode = (CheckCtrlPins st b v).lockMode ∧
    (loopStep st b v c).oldLockBtnPressed = (CheckCtrlPins st b v).oldLockBtnPressed := by
  unfold loopStep
  split
  · constructor
    · rw [ddsSetFreq_lockMode]
    · rw [ddsSetFreq_oldLock]
  · exact ⟨rfl, rfl⟩

theorem loopStep_lockHeld_stable (st : Sys) (b : Bool) (v c : ℕ)
    (hv : v < BTN_LOCK_THRESH) (ho : st.oldLockBtnPressed = true) :
    (loopStep st b v c).lockMode = st.lockMode ∧
    (loopStep st b v c).oldLockBtnPressed = true := by
  obtain ⟨l1, l2⟩ := loopStep_lockbits st b v c
  rw [l1, l2, CheckCtrlPins_lockPress st b v hv, if_pos ho]
  exact ⟨rfl, ho⟩

theorem loopStep_lockPress_toggle (st : Sys) (b : Bool) (v c : ℕ)
    (hv : v < BTN_LOCK_THRESH) (ho : st.oldLockBtnPressed = false) :
    (loopStep st b v c).lockMode = !st.lockMode ∧
    (loopStep st b v c).oldLockBtnPressed = true := by
  obtain ⟨l1, l2⟩ := loopStep_lockbits st b v c
  rw [l1, l2, CheckCtrlPins_lockPress st b v hv, if_neg (by simp [ho])]
  exact ⟨rfl, rfl⟩

theorem runLoop_lockHeld_stable (ins : List (Bool × ℕ × ℕ)) (st : Sys)
    (ho : st.oldLockBtnPressed = true)
    (hins : ∀ i ∈ ins, i.2.1 < BTN_LOCK_THRESH) :
    (runLoop st ins).lockMode = st.lockMode ∧
    (runLoop st ins).oldLockBtnPressed = true := by
  induction ins generalizing st with
  | nil => exact ⟨rfl, ho⟩
  | cons i t ih =>
      have hi := hins i (List.mem_cons_self i t)
      obtain ⟨s1, s2⟩ := loopStep_lockHeld_stable st i.1 i.2.1 i.2.2 hi ho
      have hrun : runLoop st (i :: t) = runLoop (loopStep st i.1 i.2.1 i.2.2) t := rfl
      rw [hrun]
      obtain ⟨ih1, ih2⟩ :=
        ih (loopStep st i.1 i.2.1 i.2.2) s2 (fun j hj => hins j (List.mem_cons_of_mem i hj))
      exact ⟨by rw [ih1, s1], ih2⟩

theorem runLoop_nudgeRepeat (m : ℕ) (st2 : Sys) (hfd : st2.fDDS < 4294967296) :
    (runLoop st2 (List.replicate m (true, 300, 0))).fDDS
      = (st2.fDDS + 5 * m) % 4294967296 := by
  induction m generalizing st2 with
  | zero =>
      show st2.fDDS = (st2.fDDS + 5 * 0) % 4294967296
      omega
  | succ k ih =>
      have hrun : runLoop st2 (List.replicate (k + 1) ((true : Bool), (300 : ℕ), (0 : ℕ)))
          = runLoop (loopStep st2 true 300 0) (List.replicate k (true, 300, 0)) := rfl
      have hstep : (loopStep st2 true 300 0).fDDS = (st2.fDDS + 5) % 4294967296 :=
        (loopStep_nudge st2 300 0 (by decide) (by decide)).1 (by decide)
      have hlt : (loopStep st2 true 300 0).fDDS < 4294967296 := by
        rw [hstep]
        omega
      rw [hrun, ih (loopStep st2 true 300 0) hlt, hstep]
      omega

/-- C10: the lock button is edge-triggered while the nudge buttons
auto-repeat.  Holding the lock button over n ≥ 1 consecutive cycles toggles
`lockMode` exactly once if it had been released before, and zero times
otherwise; the edge-detector is cleared only by a no-button cycle, and a
toggle happens only on a lock-press cycle with the detector clear.  A held
nudge button, by contrast, moves `fDDS` by 5 on every single cycle. -/
theorem lock_edge_trigger_nudge_repeat (st st2 : Sys) (b b2 : Bool) (v v2 n m : ℕ)
    (hv : v < BTN_LOCK_THRESH) (hn : 1 ≤ n) (hfd : st2.fDDS < 4294967296) :
    (runLoop st (List.replicate n (b, v, 0))).lockMode
      = (if st.oldLockBtnPressed then st.lockMode else !st.lockMode) ∧
    (runLoop st (List.replicate n (b, v, 0))).oldLockBtnPressed = true ∧
    (st.oldLockBtnPressed = true →
      ((CheckCtrlPins st b2 v2).oldLockBtnPressed = false ↔ NO_BUTS_THRESH < v2)) ∧
    ((CheckCtrlPins st b2 v2).lockMode ≠ st.lockMode →
      v2 < BTN_LOCK_THRESH ∧ st.oldLockBtnPressed = false) ∧
    (loopStep st2 true 300 0).fDDS = (st2.fDDS + 5) % 4294967296 ∧
    (runLoop st2 (List.replicate m (true, 300, 0))).fDDS
      = (st2.fDDS + 5 * m) % 4294967296 := by
  obtain ⟨k, rfl⟩ : ∃ k, n = k + 1 := ⟨n - 1, by omega⟩
  have hrun : runLoop st (List.replicate (k + 1) (b, v, (0 : ℕ)))
      = runLoop (loopStep st b v 0) (List.replicate k (b, v, 0)) := rfl
  have hrep : ∀ i ∈ List.replicate k (b, v, (0 : ℕ)), i.2.1 < BTN_LOCK_THRESH := by
    intro i hi
    rw [List.eq_of_mem_replicate hi]
    exact hv
  have hfirst2 : (if st.oldLockBtnPressed then st.lockMode else !st.lockMode)
      = (loopStep st b v 0).lockMode ∧ (loopStep st b v 0).oldLockBtnPressed = true := by
    by_cases ho : st.oldLockBtnPressed = true
    · obtain ⟨s1, s2⟩ := loopStep_lockHeld_stable st b v 0 hv ho
      rw [if_pos ho, s1]
      exact ⟨rfl, s2⟩
    · have ho2 : st.oldLockBtnPressed = false := by
        revert ho
        cases st.oldLockBtnPressed <;> simp
      obtain ⟨s1, s2⟩ := loopStep_lockPress_toggle st b v 0 hv ho2
      rw [if_neg (by simp [ho2]), s1]
      exact ⟨rfl, s2⟩
  obtain ⟨hf1, hf2⟩ := hfirst2
  obtain ⟨r1, r2⟩ := runLoop_lockHeld_stable (List.replicate k (b, v, 0)) (loopStep st b v 0)
    hf2 hrep
  refine ⟨by rw [hrun, r1, hf1], by rw [hrun]; exact r2, ?_, ?_, ?_, ?_⟩
  · intro hold
    unfold CheckCtrlPins
    by_cases h8 : NO_BUTS_THRESH < v2
    · rw [if_pos h8]
      simp [h8]
    · rw [if_neg h8]
      by_cases hl2 : v2 < BTN_LOCK_THRESH
      · rw [if_pos hl2, if_pos hold]
        simp [hold, h8]
      · rw [if_neg hl2]
        by_cases hb2 : (!b2) = true
        · rw [if_pos hb2]
          simp [hold, h8]
        · rw [if_neg hb2]
          by_cases hup : v2 < BTN_UP_THRESH
          · rw [if_pos hup, ddsSetFreq_oldLock]
            simp [hold, h8]
          · rw [if_neg hup, ddsSetFreq_oldLock]
            simp [hold, h8]
  · intro hne
    unfold CheckCtrlPins at hne
    by_cases h8 : NO_BUTS_THRESH < v2
    · rw [if_pos h8] at hne
      simp at hne
    · rw [if_neg h8] at hne
      by_cases hl2 : v2 < BTN_LOCK_THRESH
      · rw [if_pos hl2] at hne
        by_cases hold : st.oldLockBtnPressed = true
        · rw [if_pos hold] at hne
          simp at hne
        · have hold2 : st.oldLockBtnPressed = false := by
            revert hold
            cases st.oldLockBtnPressed <;> simp
          exact ⟨hl2, hold2⟩
      · rw [if_neg hl2] at hne
        by_cases hb2 : (!b2) = true
        · rw [if_pos hb2] at hne
          simp at hne
        · rw [if_neg hb2] at hne
          by_cases hup : v2 < BTN_UP_THRESH
          · rw [if_pos hup, ddsSetFreq_lockMode] at hne
            simp at hne
          · rw [if_neg hup, ddsSetFreq_lockMode] at hne
            simp at hne
  · exact (loopStep_nudge st2 300 0 (by decide) (by decide)).1 (by decide)
  · exact runLoop_nudgeRepeat m st2 hfd

/-- A concrete gate-complete state with nonzero snapshot and live counters. -/
def c2s : GateState := ⟨0, 7, 2, 3, 9⟩

/-- Interrupt events interleaving inside the call for the C2 witness. -/
def c2mid : List GateEv := [GateEv.edge, GateEv.t2ovf, GateEv.edge]

/-- Post-call events with fewer than SEGS_PER_GATE segment boundaries. -/
def c2evs : List GateEv := [GateEv.edge, GateEv.t2ovf, GateEv.t2ovf, GateEv.edge]

/-- A full complement of five further segment boundaries. -/
def c2pre2 : List GateEv :=
  [GateEv.t2ovf, GateEv.edge, GateEv.t2ovf, GateEv.t2ovf, GateEv.t2ovf, GateEv.t2ovf]

/-- Witness for the C2 theorem at concrete interleavings. -/
theorem getGatedCount_rearm_first_witness :
    (getGatedCountI c2s c2mid).2 = (getGatedCount c2s).2 ∧
    (getGatedCountI c2s c2mid).2 = (c2s.vCtr1OvrFlowsCopy <<< 16) + c2s.vCtr1Copy ∧
    ({ c2s with vGateSegCountdown := SEGS_PER_GATE } : GateState).vGateSegCountdown
      = SEGS_PER_GATE ∧
    gateVal (getGatedCountI c2s c2mid).1 = (gateVal c2s + numEdges c2mid) % 16777216 ∧
    1 ≤ (gateRun { c2s with vGateSegCountdown := SEGS_PER_GATE } c2evs).vGateSegCountdown ∧
    (gateRun { c2s with vGateSegCountdown := SEGS_PER_GATE } c2evs).vCtr1OvrFlowsCopy
      = c2s.vCtr1OvrFlowsCopy ∧
    (gateRun { c2s with vGateSegCountdown := SEGS_PER_GATE } c2evs).vCtr1Copy
      = c2s.vCtr1Copy ∧
    (gateRun { c2s with vGateSegCountdown := SEGS_PER_GATE }
        (c2pre2 ++ [GateEv.t2ovf])).vGateSegCountdown = 0 :=
  getGatedCount_rearm_first c2s c2mid c2evs c2pre2 (by decide) (by decide) (by decide)
    (by decide) (by decide)

/-- The locked-and-tracking state for the C7 witness. -/
def c7sb : Sys := ⟨5251000, true, true, false, scaleFactorInit, 1, 5251000⟩

/-- Two tracking cycles with differing gated counts and no lock press. -/
def c7ins : List (Bool × ℕ × ℕ) := [(false, 300, 5100000), (false, 900, 5200000)]

/-- Witness for the C7 mode-table theorem at concrete states and inputs. -/
theorem loop_mode_table_witness :
    ((loopStep c4st false 500 500000).fDDS = resolveU32 500000 c4st.scaleFactor ∧
     (ddsTransmits (resolveU32 500000 c4st.scaleFactor) = true →
       (loopStep c4st false 500 500000).synthFreq = resolveU32 500000 c4st.scaleFactor)) ∧
    ((runLoop c7sb c7ins).fDDS = c7sb.fDDS ∧ (runLoop c7sb c7ins).lockMode = true) ∧
    (600 < BTN_UP_THRESH → (loopStep c4st true 600 123).fDDS = c4st.fDDS + 5) ∧
    (BTN_UP_THRESH ≤ 600 → (loopStep c4st true 600 123).fDDS = c4st.fDDS - 5) :=
  loop_mode_table c4st c7sb c4st 500 600 500000 123 c7ins (by decide) rfl rfl (by decide)
    (by decide) (by decide) (by decide) (by decide)

/-- C8 counterexample: with 500000 edges counted over the 98.304 ms gate at
the nominal scale factor, the resolved frequency is 500000 / 0.098304
= 5,086,263.0208... Hz, which differs from the claimed 5,086,848 Hz by about
1.15e-4 relative, far outside the claimed 1e-6 relative tolerance. -/
theorem resolve_500000_not_5086848 :
    ¬ (|resolveFreq 500000 scaleFactorInit - 5086848| ≤ 5086848 / 1000000) := by
  norm_num [resolveFreq, scaleFactorInit, GATE_DUR, GATE_SEG_DUR, SEGS_PER_GATE, abs]

/-- C8 (amended): the resolved frequency for 500000 counted edges at the
nominal scale factor equals exactly 500000 / 0.098304 = 244140625/48
≈ 5,086,263.02 Hz; the `uint32_t` value commanded by the tracking loop is
5086263, which lies inside the valid band and is transmitted. -/
theorem resolve_500000_exact :
    resolveFreq 500000 scaleFactorInit = (500000 : ℚ) / 0.098304 ∧
    resolveFreq 500000 scaleFactorInit = 244140625 / 48 ∧
    resolveU32 500000 scaleFactorInit = 5086263 ∧
    ddsTransmits 5086263 = true := by
  refine ⟨?_, ?_, ?_, ?_⟩
  · norm_num [resolveFreq, scaleFactorInit, GATE_DUR, GATE_SEG_DUR, SEGS_PER_GATE]
  · norm_num [resolveFreq, scaleFactorInit, GATE_DUR, GATE_SEG_DUR, SEGS_PER_GATE]
  · norm_num [resolveU32, scaleFactorInit, GATE_DUR, GATE_SEG_DUR, SEGS_PER_GATE]
    decide
  · decide

/-- A state with the lock edge-detector clear, for the C10 witness. -/
def c10st : Sys := ⟨5250000, false, false, false, scaleFactorInit, 1, 5250000⟩

/-- Witness for the C10 theorem: lock held for 3 cycles, nudge held for 4. -/
theorem lock_edge_trigger_nudge_repeat_witness :
    (runLoop c10st (List.replicate 3 (false, 100, 0))).lockMode
      = (if c10st.oldLockBtnPressed then c10st.lockMode else !c10st.lockMode) ∧
    (runLoop c10st (List.replicate 3 (false, 100, 0))).oldLockBtnPressed = true ∧
    (c10st.oldLockBtnPressed = true →
      ((CheckCtrlPins c10st true 900).oldLockBtnPressed = false ↔ NO_BUTS_THRESH < 900)) ∧
    ((CheckCtrlPins c10st true 900).lockMode ≠ c10st.lockMode →
      900 < BTN_LOCK_THRESH ∧ c10st.oldLockBtnPressed = false) ∧
    (loopStep c4st true 300 0).fDDS = (c4st.fDDS + 5) % 4294967296 ∧
    (runLoop c4st (List.replicate 4 (true, 300, 0))).fDDS
      = (c4st.fDDS + 5 * 4) % 4294967296 :=
  lock_edge_trigger_nudge_repeat c10st c4st false true 100 900 3 4 (by decide) (by decide)
    (by decide)
